import Mathlib

/-!
Verification of the RealtyBot property data acquisition and caching layer.

The development shallowly embeds the TypeScript sources:
* `RaileyScraper` (railey-scraper.ts): freshness cache, pattern extractor,
  fallback sample data, title/feature/description synthesis, normalizer.
* `OpenAIScraper` (openai-scraper.ts): delegated-extraction strategy.
* `MemStorage` (server/storage.ts): in-memory property store and search.
* route-level maxPrice handling (server/routes.ts).

Machine integers are modelled as `Int`/`Nat`; JavaScript strings as `String`
operated on through their `List Char` data; fallible operations as `Except`.
External effects (network fetch, the regex engine's match stream, the
delegated LLM call, `Date.now()`, `Math.random()`, `randomUUID()`) enter the
embedding as explicit parameters.
-/

namespace RealtyBot

/-! ## String utilities (models of JS string primitives) -/

/-- Model of JS `String.prototype.toLowerCase` restricted to ASCII, which is
the only alphabet appearing in this program's data and search needles. -/
def lowerChar (c : Char) : Char :=
  if 'A' ≤ c ∧ c ≤ 'Z' then Char.ofNat (c.toNat + 32) else c

/-- Lower-case every character of a string. -/
def strToLower (s : String) : String := ⟨s.data.map lowerChar⟩

/-- `startsWithChars hay needle` holds when `needle` is an initial segment of
`hay` (model of an anchored match at the start). -/
def startsWithChars : List Char → List Char → Bool
  | _, [] => true
  | [], _ :: _ => false
  | h :: hs, n :: ns => h == n && startsWithChars hs ns

/-- `containsChars hay needle` models JS `String.prototype.includes` on the
underlying character lists. -/
def containsChars : List Char → List Char → Bool
  | [], needle => needle.isEmpty
  | h :: t, needle => startsWithChars (h :: t) needle || containsChars t needle

/-- Model of JS `hay.includes(needle)`. -/
def strIncludes (hay needle : String) : Bool := containsChars hay.data needle.data

theorem startsWithChars_iff (hay needle : List Char) :
    startsWithChars hay needle = true ↔ ∃ t, hay = needle ++ t := by
  induction needle generalizing hay with
  | nil => simp [startsWithChars]
  | cons n ns ih =>
    cases hay with
    | nil => simp [startsWithChars]
    | cons h hs =>
      simp only [startsWithChars, Bool.and_eq_true, beq_iff_eq, ih, List.cons_append,
        List.cons.injEq]
      constructor
      · rintro ⟨rfl, t, rfl⟩; exact ⟨t, rfl, rfl⟩
      · rintro ⟨t, rfl, rfl⟩; exact ⟨rfl, t, rfl⟩

theorem containsChars_iff (hay needle : List Char) :
    containsChars hay needle = true ↔ ∃ l₁ l₂, hay = l₁ ++ needle ++ l₂ := by
  induction hay with
  | nil =>
    simp only [containsChars, List.isEmpty_iff]
    constructor
    · rintro rfl; exact ⟨[], [], rfl⟩
    · rintro ⟨l₁, l₂, h⟩
      rcases List.append_eq_nil.mp (List.append_eq_nil.mp h.symm).1 with ⟨-, h₂⟩
      exact h₂
  | cons h t ih =>
    simp only [containsChars, Bool.or_eq_true, startsWithChars_iff, ih]
    constructor
    · rintro (⟨u, hu⟩ | ⟨l₁, l₂, hl⟩)
      · exact ⟨[], u, by simp [hu]⟩
      · exact ⟨h :: l₁, l₂, by simp [hl]⟩
    · rintro ⟨l₁, l₂, hl⟩
      cases l₁ with
      | nil => exact Or.inl ⟨l₂, by simpa using hl⟩
      | cons a as =>
        right
        refine ⟨as, l₂, ?_⟩
        have := hl
        simp only [List.cons_append] at this
        exact (List.cons.injEq .. ▸ this).2

/-- Splits a character list on a separator character; models JS
`String.prototype.split` with a single-character separator. -/
def splitOnChar (sep : Char) : List Char → List (List Char)
  | [] => [[]]
  | c :: t =>
    let r := splitOnChar sep t
    if c = sep then [] :: r
    else
      match r with
      | [] => [[c]]
      | h :: t' => (c :: h) :: t'

theorem splitOnChar_ne_nil (sep : Char) (l : List Char) : splitOnChar sep l ≠ [] := by
  cases l with
  | nil => simp [splitOnChar]
  | cons c t =>
    simp only [splitOnChar]
    split
    · simp
    · split <;> simp

/-- The first field of `splitOnChar` is exactly the text before the first
separator, i.e. the longest separator-free initial segment. -/
theorem splitOnChar_head (sep : Char) (l : List Char) :
    (splitOnChar sep l).headD [] = l.takeWhile (fun c => ¬ (c = sep)) := by
  induction l with
  | nil => simp [splitOnChar]
  | cons c t ih =>
    simp only [splitOnChar, List.takeWhile]
    by_cases hc : c = sep
    · simp [hc]
    · simp only [if_neg hc]
      have hne := splitOnChar_ne_nil sep t
      cases hr : splitOnChar sep t with
      | nil => exact absurd hr hne
      | cons h t' =>
        simp only [List.headD] at ih ⊢
        rw [hr] at ih
        simp only [decide_not] at ih ⊢
        simp [hc, ih]

/-- Model of JS `s.split(",")[0]`: the text of `s` before the first comma
(the whole of `s` when it has no comma). -/
def jsSplitHead (s : String) : String := ⟨(splitOnChar ',' s.data).headD []⟩

/-- Digits-prefix value: parses the maximal leading run of decimal digits. -/
def digitsPrefixVal (l : List Char) : Option Nat :=
  let ds := l.takeWhile Char.isDigit
  if ds.isEmpty then none
  else some (ds.foldl (fun acc c => acc * 10 + (c.toNat - 48)) 0)

/-- Model of JS `parseInt(s, 10)`: skip leading spaces, optional sign, then a
maximal run of decimal digits; `none` models the `NaN` outcome. -/
def jsParseIntOpt (s : String) : Option Int :=
  match s.data.dropWhile (fun c => c = ' ') with
  | '-' :: rest => (digitsPrefixVal rest).map (fun n => -(n : Int))
  | '+' :: rest => (digitsPrefixVal rest).map (fun n => (n : Int))
  | rest => (digitsPrefixVal rest).map (fun n => (n : Int))

/-- `parseInt` with the `NaN` outcome collapsed to `0`.  In every use in this
code base the parsed value only flows into comparisons of the shape
`NaN > k` / `NaN <= k`, which are false in JS exactly as they are for `0`
against the positive thresholds used, so the collapse is observationally
faithful there. -/
def jsParseIntZ (s : String) : Int := (jsParseIntOpt s).getD 0

/-- Model of `s.replace(/,/g, "")`. -/
def stripCommas (s : String) : String := ⟨s.data.filter (fun c => ¬ (c = ','))⟩

/-- Value of a digit list (used for the delegated strategy's digit-filter
price coercion). -/
def digitsVal (l : List Char) : Nat :=
  l.foldl (fun acc c => acc * 10 + (c.toNat - 48)) 0

theorem strData_append (s t : String) : (s ++ t).data = s.data ++ t.data := by
  cases s; cases t; rfl

theorem strAppend_ne_empty_left (s t : String) (h : s.data ≠ []) : s ++ t ≠ "" := by
  intro he
  apply h
  have hd := congrArg String.data he
  rw [strData_append] at hd
  exact (List.append_eq_nil.mp hd).1

/-! ## Data model (shared/schema.ts and the scrapers' record shapes) -/

/-- `RaileyProperty` (railey-scraper.ts): the pattern-rule strategy's raw
listing record.  Timestamps are epoch milliseconds as `Int`. -/
structure RaileyProperty where
  id : String
  title : String
  address : String
  price : Int
  bedrooms : Int
  bathrooms : String
  sqft : Option Int
  lotSize : Option String
  imageUrl : String
  description : String
  features : List String
  daysOnMarket : Int
  mlsNumber : String
deriving DecidableEq, Repr

/-- `ScrapedProperty` (openai-scraper.ts): the delegated strategy's record. -/
structure ScrapedProperty where
  id : String
  title : String
  address : String
  price : Int
  bedrooms : Int
  bathrooms : String
  sqft : Option Int
  imageUrl : String
  description : String
  features : List String
  daysOnMarket : Option Int
  mlsNumber : Option String
  listingUrl : Option String
deriving DecidableEq, Repr

/-- `Property` (shared/schema.ts): the canonical application property.
`description` and `features` are nullable columns, modelled as `Option`;
`createdAt` is an epoch-millisecond timestamp. -/
structure Property where
  id : String
  title : String
  address : String
  price : Int
  bedrooms : Int
  bathrooms : String
  imageUrl : String
  description : Option String
  features : Option (List String)
  createdAt : Int
deriving DecidableEq, Repr

/-- `InsertProperty` (shared/schema.ts): `Property` without `id`/`createdAt`. -/
structure InsertProperty where
  title : String
  address : String
  price : Int
  bedrooms : Int
  bathrooms : String
  imageUrl : String
  description : Option String
  features : Option (List String)
deriving DecidableEq, Repr

/-! ## RaileyScraper (railey-scraper.ts) -/

namespace RaileyScraper

/-- `cacheTimeout = 30 * 60 * 1000` milliseconds. -/
def cacheTimeout : Int := 30 * 60 * 1000

/-- The scraper's mutable instance state: `listings` and `lastFetched`
(`none` models the initial `null`). -/
structure ScraperState where
  listings : List RaileyProperty
  lastFetched : Option Int
deriving DecidableEq, Repr

/-- State at construction: empty listings, `lastFetched = null`. -/
def initialState : ScraperState := { listings := [], lastFetched := none }

/-- `extractFeatures(address, sqft, price)`: location, size and price based
feature tags, with a fixed default set when nothing matched. -/
def extractFeatures (address : String) (sqft : Int) (price : Int) : List String :=
  let a := strToLower address
  let l1 := if strIncludes a "deep creek" || strIncludes a "lake" then
      ["Lake Access", "Mountain Views"] else []
  let l2 := if strIncludes a "wisp" || strIncludes a "ski" then
      ["Ski Access", "Resort Area"] else []
  let l3 := if strIncludes a "garrett" then
      ["Garrett County", "Mountain Location"] else []
  let l4 := if 2500 < sqft then ["Spacious Living", "Large Floor Plan"] else []
  let l5 := if 3500 < sqft then ["Luxury Home"] else []
  let l6 := if 500000 < price then ["Premium Property", "High-End Finishes"] else []
  let l7 := if 750000 < price then ["Luxury Estate"] else []
  let fs := l1 ++ l2 ++ l3 ++ l4 ++ l5 ++ l6 ++ l7
  if fs.isEmpty then ["Mountain Living", "Natural Setting", "Four Season Location"]
  else fs

/-- `generateTitle(address, features)`: priority order Lake Access, Ski
Access, Luxury Estate, generic; prefixes `address.split(",")[0]`. -/
def generateTitle (address : String) (features : List String) : String :=
  if features.contains "Lake Access" then
    "Lake Access Home - " ++ jsSplitHead address
  else if features.contains "Ski Access" then
    "Ski Resort Property - " ++ jsSplitHead address
  else if features.contains "Luxury Estate" then
    "Luxury Mountain Estate - " ++ jsSplitHead address
  else
    "Mountain Home - " ++ jsSplitHead address

/-- `generateDescription(address, features, price)`: templated sentence. -/
def generateDescription (address : String) (features : List String)
    (price : Int) : String :=
  let location := if strIncludes address "MD" then "Maryland mountain" else "scenic"
  let priceRange :=
    if 500000 < price then "luxury" else if 300000 < price then "premium"
    else "comfortable"
  "Beautiful " ++ priceRange ++ " home in the " ++ location ++
    " area of Garrett County. This property offers " ++
    strToLower (String.intercalate ", " (features.take 3)) ++
    " and is perfect for year-round living or as a vacation retreat in Deep Creek Lake area."

/-- `getSampleData()`: the hard-coded fallback data set (five records
transcribed verbatim from railey-scraper.ts). -/
def getSampleData : List RaileyProperty :=
  [ { id := "sample-1"
    , title := "Lakefront Mountain Retreat"
    , address := "123 Deep Creek Lake Dr, McHenry, MD 21541"
    , price := 525000
    , bedrooms := 3
    , bathrooms := "2.5"
    , sqft := some 2100
    , lotSize := none
    , imageUrl := "https://images.unsplash.com/photo-1564013799919-ab600027ffc6?ixlib=rb-4.0.3&auto=format&fit=crop&w=400&h=300"
    , description := "Stunning lakefront property with private dock access and panoramic mountain views. Perfect for year-round living or vacation rental."
    , features := ["Lakefront", "Private Dock", "Mountain Views", "Fireplace"]
    , daysOnMarket := 15
    , mlsNumber := "SAMPLE001" }
  , { id := "sample-2"
    , title := "Ski-In/Ski-Out Condo"
    , address := "456 Wisp Resort Rd, McHenry, MD 21541"
    , price := 285000
    , bedrooms := 2
    , bathrooms := "2"
    , sqft := some 1200
    , lotSize := none
    , imageUrl := "https://images.unsplash.com/photo-1545324418-cc1a3fa10c00?ixlib=rb-4.0.3&auto=format&fit=crop&w=400&h=300"
    , description := "Modern condo with direct ski slope access at Wisp Resort. Fully furnished and ready for mountain adventures."
    , features := ["Ski Access", "Resort Amenities", "Furnished", "Mountain Views"]
    , daysOnMarket := 8
    , mlsNumber := "SAMPLE002" }
  , { id := "sample-3"
    , title := "Mountain View Family Home"
    , address := "789 Garrett Heights Way, Oakland, MD 21550"
    , price := 375000
    , bedrooms := 4
    , bathrooms := "3"
    , sqft := some 2800
    , lotSize := none
    , imageUrl := "https://images.unsplash.com/photo-1570129477492-45c003edd2be?ixlib=rb-4.0.3&auto=format&fit=crop&w=400&h=300"
    , description := "Spacious family home with breathtaking mountain views and large yard. Great for full-time residence in beautiful Garrett County."
    , features := ["Mountain Views", "Large Yard", "Family Friendly", "Updated Kitchen"]
    , daysOnMarket := 22
    , mlsNumber := "SAMPLE003" }
  , { id := "sample-4"
    , title := "Lake Access Cabin"
    , address := "321 Lakeshore Trail, Swanton, MD 21561"
    , price := 195000
    , bedrooms := 2
    , bathrooms := "1"
    , sqft := some 1000
    , lotSize := none
    , imageUrl := "https://images.unsplash.com/photo-1518780664697-55e3ad937233?ixlib=rb-4.0.3&auto=format&fit=crop&w=400&h=300"
    , description := "Cozy cabin with lake access and hiking trails nearby. Perfect weekend getaway in the heart of nature."
    , features := ["Lake Access", "Hiking Trails", "Cozy Cabin", "Natural Setting"]
    , daysOnMarket := 5
    , mlsNumber := "SAMPLE004" }
  , { id := "sample-5"
    , title := "Luxury Mountain Estate"
    , address := "654 Summit Ridge Dr, Terra Alta, WV 26764"
    , price := 750000
    , bedrooms := 5
    , bathrooms := "4.5"
    , sqft := some 4200
    , lotSize := none
    , imageUrl := "https://images.unsplash.com/photo-1512917774080-9991f1c4c750?ixlib=rb-4.0.3&auto=format&fit=crop&w=400&h=300"
    , description := "Impressive luxury estate with premium finishes, multiple fireplaces, and expansive mountain views from every room."
    , features := ["Luxury Estate", "Premium Finishes", "Multiple Fireplaces", "Panoramic Views"]
    , daysOnMarket := 45
    , mlsNumber := "SAMPLE005" }
  ]

/-- The cache validity test guarding `fetchListings`:
`this.lastFetched && Date.now() - this.lastFetched.getTime() < this.cacheTimeout`. -/
def isFresh (st : ScraperState) (now : Int) : Bool :=
  match st.lastFetched with
  | none => false
  | some tf => decide (now - tf < cacheTimeout)

/-- `fetchListings()` with the extraction step made explicit.  In the shipped
code the extraction inside the `try` block is literally
`const properties = []` (the network fetch is commented out), which is the
instance `ext = Except.ok []` (see `fetchListings`); `Except.error` models a
raised error reaching the `catch` block.  Returns (result, new state). -/
def fetchListingsWith (ext : Except Unit (List RaileyProperty))
    (st : ScraperState) (now : Int) : List RaileyProperty × ScraperState :=
  if isFresh st now then (st.listings, st)
  else
    match ext with
    | .ok props =>
        if props.isEmpty then (getSampleData, st)
        else (props, { listings := props, lastFetched := some now })
    | .error _ =>
        (if st.listings.isEmpty then getSampleData else st.listings, st)

/-- `fetchListings()` exactly as shipped: the extraction step is the
hard-coded empty list. -/
def fetchListings (st : ScraperState) (now : Int) :
    List RaileyProperty × ScraperState :=
  fetchListingsWith (Except.ok []) st now

/-- One capture of the listing regex in `parseListingsFromHtml` (its seven
capture groups). The regex engine itself is an external component; the match
stream it produces is a parameter of the embedding. -/
structure ListingMatch where
  mlsNumber : String
  url : String
  priceStr : String
  addressLine : String
  beds : String
  baths : String
  sqftStr : String
deriving DecidableEq, Repr

/-- The default image used when no `img` tag with a matching alt text is
found. -/
def defaultImage : String :=
  "https://images.unsplash.com/photo-1570129477492-45c003edd2be?ixlib=rb-4.0.3&auto=format&fit=crop&w=400&h=300"

/-- Builds one record from a regex match, as the loop body of
`parseListingsFromHtml` does.  `imageFor` models the secondary image-pattern
search over the same document (`none` = no matching `img` tag). -/
def buildListing (imageFor : String → Option String) (m : ListingMatch) :
    RaileyProperty :=
  let price := jsParseIntZ (stripCommas m.priceStr)
  let address := m.addressLine.trim
  let bedrooms := jsParseIntZ m.beds
  let squareFeet := jsParseIntZ (stripCommas m.sqftStr)
  let imageUrl := (imageFor m.mlsNumber).getD defaultImage
  let features := extractFeatures address squareFeet price
  { id := m.mlsNumber
  , title := generateTitle address features
  , address := address
  , price := price
  , bedrooms := bedrooms
  , bathrooms := m.baths
  , sqft := some squareFeet
  , lotSize := none
  , imageUrl := imageUrl
  , description := generateDescription address features price
  , features := features
  , daysOnMarket := 0
  , mlsNumber := m.mlsNumber }

/-- The `while ((match = pattern.exec(html)) !== null && properties.length < 50)`
loop: consumes successive matches while fewer than 50 records are built. -/
def parseListingsLoop (imageFor : String → Option String) :
    List ListingMatch → Nat → List RaileyProperty
  | [], _ => []
  | m :: rest, n =>
      if n < 50 then buildListing imageFor m :: parseListingsLoop imageFor rest (n + 1)
      else []

/-- `parseListingsFromHtml`: builds up to 50 records from the match stream;
if none were built it returns the sample data. -/
def parseListingsFromHtml (imageFor : String → Option String)
    (ms : List ListingMatch) : List RaileyProperty :=
  let properties := parseListingsLoop imageFor ms 0
  if properties.isEmpty then getSampleData else properties

/-- `convertToAppProperty(raileyProperty)`: the normalizer from the raw
record to the canonical `Property`; `new Date()` is the explicit `now`. -/
def convertToAppProperty (r : RaileyProperty) (now : Int) : Property :=
  { id := r.id
  , title := r.title
  , address := r.address
  , price := r.price
  , bedrooms := r.bedrooms
  , bathrooms := r.bathrooms
  , imageUrl := r.imageUrl
  , description := some r.description
  , features := some r.features
  , createdAt := now }

end RaileyScraper

/-! ## OpenAIScraper (openai-scraper.ts) -/

/-- A JSON value, as produced by `JSON.parse` of the delegated service's
response (numbers restricted to integers, which is all this program's
records use). -/
inductive Json where
  | null
  | bool (b : Bool)
  | num (n : Int)
  | str (s : String)
  | arr (els : List Json)
  | obj (fields : List (String × Json))

namespace Json

/-- JS property access `v[k]`: `none` models `undefined` (also for access on
non-object values, which this code only performs behind guards). -/
def get : Json → String → Option Json
  | .obj fs, k => fs.lookup k
  | _, _ => none

/-- JS truthiness of a parsed JSON value. -/
def truthy : Json → Bool
  | .null => false
  | .bool b => b
  | .num n => n != 0
  | .str s => s != ""
  | .arr _ => true
  | .obj _ => true

/-- JS `toString()` of a parsed JSON value.  Arrays and objects are
simplified (JS would join array element renderings); the record positions
this model converts are restricted to scalars by `recordWellFormed`. -/
def toStr : Json → String
  | .null => "null"
  | .bool true => "true"
  | .bool false => "false"
  | .num n => toString n
  | .str s => s
  | .arr _ => ""
  | .obj _ => "[object Object]"

end Json

namespace OpenAIScraper

/-- The scraper's mutable instance state (`lastScrapeTime`, initially 0, and
`cachedProperties`, initially empty). -/
structure ScraperState where
  lastScrapeTime : Int
  cachedProperties : List ScrapedProperty
deriving DecidableEq, Repr

def initialState : ScraperState := { lastScrapeTime := 0, cachedProperties := [] }

/-- `generateTitle(address, features)` of the delegated strategy (the
`address` argument is unused in the source as well). -/
def generateTitle (_address : String) (features : List String) : String :=
  let hasLakefront := features.any fun f =>
    strIncludes (strToLower f) "lakefront" || strIncludes (strToLower f) "lake"
  let hasSki := features.any fun f =>
    strIncludes (strToLower f) "ski" || strIncludes (strToLower f) "wisp"
  let hasMountain := features.any fun f =>
    strIncludes (strToLower f) "mountain" || strIncludes (strToLower f) "view"
  if hasLakefront then "Lakefront Property"
  else if hasSki then "Ski Access Property"
  else if hasMountain then "Mountain View Home"
  else "Deep Creek Lake Area Home"

/-- `getPlaceholderImage(features)`: one of four fixed image URLs. -/
def getPlaceholderImage (features : List String) : String :=
  let hasLakefront := features.any fun f =>
    strIncludes (strToLower f) "lakefront" || strIncludes (strToLower f) "lake"
  let hasSki := features.any fun f => strIncludes (strToLower f) "ski"
  let hasMountain := features.any fun f => strIncludes (strToLower f) "mountain"
  if hasLakefront then
    "https://images.unsplash.com/photo-1564013799919-ab600027ffc6?ixlib=rb-4.0.3&auto=format&fit=crop&w=400&h=300"
  else if hasSki then
    "https://images.unsplash.com/photo-1545324418-cc1a3fa10c00?ixlib=rb-4.0.3&auto=format&fit=crop&w=400&h=300"
  else if hasMountain then
    "https://images.unsplash.com/photo-1570129477492-45c003edd2be?ixlib=rb-4.0.3&auto=format&fit=crop&w=400&h=300"
  else
    "https://images.unsplash.com/photo-1518780664697-55e3ad937233?ixlib=rb-4.0.3&auto=format&fit=crop&w=400&h=300"

/-- A string-valued record field defaulted through a JS truthiness guard
(`prop.field ? prop.field : default` shape used for address/description). -/
def jsStrField (o : Option Json) (dflt : String) : String :=
  match o with
  | some v => if v.truthy then v.toStr else dflt
  | none => dflt

/-- `prop.price` coercion for a non-number value:
`parseInt(prop.price?.toString().replace(/[^0-9]/g, '') || '0')` —
keep only digit characters, defaulting to `'0'` when none remain. -/
def coercePrice (v : Json) : Int :=
  let digits := (Json.toStr v).data.filter Char.isDigit
  if digits.isEmpty then 0 else (digitsVal digits : Int)

/-- The record mapping of `extractPropertiesWithOpenAI` (lines mapping each
`prop` of the response to a `ScrapedProperty`).  `t` is `Date.now()`, `i`
the record's index, and `rand` the sampled `Math.floor(Math.random()*30)+1`.
Numeric fields (`bedrooms`, `sqft`) hold `Int`; a well-formed record
(`recordWellFormed`) restricts them to JSON numbers, which is the typed
shape the prompt demands — an untyped JS value would flow through the `||`
guards unconverted. -/
def mapRecord (j : Json) (t : Int) (i : Nat) (rand : Int) : ScrapedProperty :=
  let feats : List String :=
    match j.get "features" with
    | some (.arr l) => l.map Json.toStr
    | _ => []
  { id := "railey-" ++ toString t ++ "-" ++ toString i
  , title := generateTitle (Json.toStr ((j.get "address").getD .null)) feats
  , address := jsStrField (j.get "address") "Address not available"
  , price :=
      match j.get "price" with
      | some (.num n) => n
      | some v => coercePrice v
      | none => 0
  , bedrooms :=
      match j.get "bedrooms" with
      | some (.num n) => n
      | _ => 0
  , bathrooms :=
      match j.get "bathrooms" with
      | none => "0"
      | some .null => "0"
      | some v => let s := v.toStr; if s = "" then "0" else s
  , sqft :=
      match j.get "sqft" with
      | some (.num n) => if n = 0 then none else some n
      | _ => none
  , imageUrl := getPlaceholderImage feats
  , description :=
      jsStrField (j.get "description") "Property description not available"
  , features := feats
  , mlsNumber :=
      match j.get "mlsNumber" with
      | some v => if v.truthy then some v.toStr else none
      | none => none
  , listingUrl :=
      match j.get "listingUrl" with
      | some v => if v.truthy then some v.toStr else none
      | none => none
  , daysOnMarket := some rand }

/-- The schema check of `extractPropertiesWithOpenAI`:
`result.properties` exists and `Array.isArray(result.properties)`. -/
def hasPropertiesArray (j : Json) : Bool :=
  match j.get "properties" with
  | some (.arr _) => true
  | _ => false

/-- `extractPropertiesWithOpenAI` after the service call: takes the result
of `JSON.parse` on the response (`Except.error` models a parse failure or a
failed service call, which the `catch` re-throws) and produces the records.
A parsed value whose `properties` field is not an array yields zero records.
`rands` supplies the per-index `Math.random()` samples. -/
def extractPropertiesWithOpenAI (parsed : Except Unit Json) (t : Int)
    (rands : Nat → Int) : Except Unit (List ScrapedProperty) :=
  match parsed with
  | .error e => .error e
  | .ok j =>
      match j.get "properties" with
      | some (.arr l) => .ok ((l.enum).map fun p => mapRecord p.2 t p.1 (rands p.1))
      | _ => .ok []

/-- `scrapeRaileyListings` after extraction: non-empty results replace the
cache and set `lastScrapeTime`; an empty result keeps the cached data; a
raised error propagates (`throw error` in the `catch`).  Returns the value
of `this.cachedProperties` at return time. -/
def scrapeStep (extracted : Except Unit (List ScrapedProperty))
    (st : ScraperState) (now : Int) :
    Except Unit (List ScrapedProperty × ScraperState) :=
  match extracted with
  | .error e => .error e
  | .ok props =>
      if props.isEmpty then .ok (st.cachedProperties, st)
      else
        let st' : ScraperState := { lastScrapeTime := now, cachedProperties := props }
        .ok (st'.cachedProperties, st')

/-- A record field that is a string, absent, or null. -/
def strFieldOk : Option Json → Bool
  | none => true
  | some .null => true
  | some (.str _) => true
  | _ => false

/-- Structural well-formedness of one record of the delegated service's
response, per the schema the prompt demands: string fields are strings (or
absent/null), `price` is a number or a (possibly invalid numeric) string,
`bedrooms` and `sqft` are numbers, `features` is an array of strings. -/
def recordWellFormed (j : Json) : Bool :=
  strFieldOk (j.get "address") && strFieldOk (j.get "description") &&
  strFieldOk (j.get "bathrooms") && strFieldOk (j.get "mlsNumber") &&
  strFieldOk (j.get "listingUrl") &&
  (match j.get "price" with
   | none => true | some .null => true | some (.num _) => true
   | some (.str _) => true | _ => false) &&
  (match j.get "bedrooms" with
   | none => true | some .null => true | some (.num _) => true | _ => false) &&
  (match j.get "sqft" with
   | none => true | some .null => true | some (.num _) => true | _ => false) &&
  (match j.get "features" with
   | none => true | some .null => true
   | some (.arr l) => l.all fun e => match e with | .str _ => true | _ => false
   | _ => false)

end OpenAIScraper

/-! ## MemStorage (server/storage.ts) -/

namespace MemStorage

/-- JS `Map.set` semantics on an insertion-ordered association list:
overwrite in place when the key exists, append otherwise. -/
def mapSet (m : List (String × Property)) (k : String) (v : Property) :
    List (String × Property) :=
  if m.any (fun e => e.1 = k) then
    m.map (fun e => if e.1 = k then (k, v) else e)
  else m ++ [(k, v)]

/-- The store's state: the `properties` map plus the `raileyScraper`
singleton's state that `initializeRaileyData` reads and threads. -/
structure StoreState where
  props : List (String × Property)
  scr : RaileyScraper.ScraperState
deriving DecidableEq, Repr

/-- `property.description || null` applied when a converted property is
inserted: an empty string is falsy and becomes null.  (The parallel
`property.features || null` is the identity on the converted value, because
a JS array — even an empty one — is truthy.) -/
def jsStrOrNull : Option String → Option String
  | none => none
  | some s => if s = "" then none else some s

/-- `initializeRaileyData()` (shortened to `initRaileyData` here): fetch
listings, convert the first 12, insert each into the `properties` map.  The
surrounding `try/catch` only logs; the embedded pipeline is total, so no
catch path arises. -/
def initRaileyData (ext : Except Unit (List RaileyProperty)) (now : Int)
    (s : StoreState) : StoreState :=
  let r := RaileyScraper.fetchListingsWith ext s.scr now
  let conv := (r.1.take 12).map (fun rp => RaileyScraper.convertToAppProperty rp now)
  { props :=
      conv.foldl
        (fun m p => mapSet m p.id { p with description := jsStrOrNull p.description })
        s.props
  , scr := r.2 }

/-- The store state right after `new MemStorage()` (the constructor invokes
`initializeRaileyData`). -/
def newMemStorage (ext : Except Unit (List RaileyProperty)) (t0 : Int) :
    StoreState :=
  initRaileyData ext t0 { props := [], scr := RaileyScraper.initialState }

/-- `getProperties()`: lazily re-populates when the map is empty, then
returns the map's values. -/
def getProperties (ext : Except Unit (List RaileyProperty)) (now : Int)
    (s : StoreState) : List Property × StoreState :=
  if s.props.isEmpty then
    let s' := initRaileyData ext now s
    (s'.props.map (fun e => e.2), s')
  else (s.props.map (fun e => e.2), s)

/-- The text-match condition of `searchProperties` on one property:
case-insensitive `includes` over title, address, the nullable description,
and the nullable feature list (optional chaining yields `undefined`, i.e.
false, on null fields). -/
def matchesQuery (searchTerm : String) (p : Property) : Bool :=
  strIncludes (strToLower p.title) searchTerm ||
  strIncludes (strToLower p.address) searchTerm ||
  (match p.description with
   | some d => strIncludes (strToLower d) searchTerm
   | none => false) ||
  (match p.features with
   | some fs => fs.any (fun f => strIncludes (strToLower f) searchTerm)
   | none => false)

/-- The price condition `maxPrice ? property.price <= maxPrice : true`:
a provided `0` is falsy and disables the bound. -/
def matchesPrice (maxPrice : Option Int) (p : Property) : Bool :=
  match maxPrice with
  | none => true
  | some m => if m = 0 then true else decide (p.price ≤ m)

/-- `searchProperties(query, maxPrice?)` over the store's current values. -/
def searchProperties (props : List Property) (query : String)
    (maxPrice : Option Int) : List Property :=
  let searchTerm := strToLower query
  props.filter (fun p => matchesQuery searchTerm p && matchesPrice maxPrice p)

/-- `createProperty(insertProperty)`: spreads the argument, assigns the
generated id (`randomUUID()`, passed explicitly) and `createdAt`, inserts. -/
def createProperty (s : StoreState) (ip : InsertProperty) (id : String)
    (now : Int) : Property × StoreState :=
  let p : Property :=
    { id := id
    , title := ip.title
    , address := ip.address
    , price := ip.price
    , bedrooms := ip.bedrooms
    , bathrooms := ip.bathrooms
    , imageUrl := ip.imageUrl
    , description := ip.description
    , features := ip.features
    , createdAt := now }
  (p, { s with props := mapSet s.props id p })

/-- The property-mutating operations the application can perform on the
store: (re-)population through the fetch pipeline — the constructor's
initial population and `getProperties`' lazy re-population both run
`initializeRaileyData`, whose extraction step in the shipped code is the
hard-coded empty list — and `createProperty`. -/
inductive StoreOp where
  | populate (now : Int)
  | create (ip : InsertProperty) (id : String) (now : Int)

/-- Applies one operation to the store state. -/
def applyOp (s : StoreState) : StoreOp → StoreState
  | .populate now => initRaileyData (Except.ok []) now s
  | .create ip id now => (createProperty s ip id now).2

/-- Runs a sequence of operations from the pre-construction empty store. -/
def runOps (ops : List StoreOp) : StoreState :=
  ops.foldl applyOp { props := [], scr := RaileyScraper.initialState }

/-- The C9 invariant on one stored property: non-empty image URL and
non-negative price. -/
def goodProp (p : Property) : Bool :=
  p.imageUrl != "" && decide (0 ≤ p.price)

/-- The invariant over the whole store. -/
def storeOk (s : StoreState) : Bool :=
  s.props.all (fun e => goodProp e.2)

/-- An operation is benign when any property it supplies itself satisfies
the invariant (population ops supply only pipeline output). -/
def goodOp : StoreOp → Bool
  | .populate _ => true
  | .create ip _ _ => ip.imageUrl != "" && decide (0 ≤ ip.price)

end MemStorage

/-! ## Route layer (server/routes.ts) -/

namespace Routes

/-- `/api/properties/search` maxPrice handling:
`maxPrice ? parseInt(maxPrice) : undefined`.  An absent or empty (falsy)
query parameter maps to `undefined`; otherwise `parseInt` is applied (its
`NaN` outcome is modelled as `none`, which the store's falsy-test treats
identically). -/
def maxPriceNum : Option String → Option Int
  | none => none
  | some s => if s = "" then none else jsParseIntOpt s

end Routes

/-! ## Spec-side vocabulary and concrete fixtures -/

/-- Spec notion of a complete raw listing record (§3 RawListingRecord): all
required fields populated with non-degenerate values, square footage and
MLS number present, image URL non-empty, price and bedrooms non-negative. -/
def completeRecord (r : RaileyProperty) : Bool :=
  r.id != "" && r.title != "" && r.address != "" && decide (0 ≤ r.price) &&
  decide (0 ≤ r.bedrooms) && r.bathrooms != "" && r.sqft.isSome &&
  r.imageUrl != "" && r.description != "" && !r.features.isEmpty &&
  r.mlsNumber != ""

/-- Spec notion of the street portion of an address: the address text before
the first comma. -/
def streetPortion (address : String) : String :=
  ⟨address.data.takeWhile (fun c => ¬ (c = ','))⟩

/-- Spec notion of case-insensitive substring containment: the lower-cased
needle occurs contiguously inside the lower-cased haystack. -/
def CIContains (hay needle : String) : Prop :=
  ∃ l₁ l₂, (strToLower hay).data = l₁ ++ (strToLower needle).data ++ l₂

/-- A cached listing distinct from every fallback record (fixture for the
cache-behaviour counterexample). -/
def cachedListing : RaileyProperty :=
  { id := "cached-1"
  , title := "Cached Home"
  , address := "1 Cache St, Oakland, MD"
  , price := 100000
  , bedrooms := 2
  , bathrooms := "1"
  , sqft := some 900
  , lotSize := none
  , imageUrl := "https://example.com/cached.jpg"
  , description := "A previously cached record."
  , features := ["Mountain Living"]
  , daysOnMarket := 3
  , mlsNumber := "CACHED001" }

/-- A scraper state holding one cached listing fetched at time 0. -/
def cachedStaleState : RaileyScraper.ScraperState :=
  { listings := [cachedListing], lastFetched := some 0 }

/-- A regex match fixture for the extractor-cap scenario. -/
def exampleMatch : RaileyScraper.ListingMatch :=
  { mlsNumber := "123456"
  , url := "/listing/123456"
  , priceStr := "350,000"
  , addressLine := " 100 Deep Creek Dr, McHenry, MD "
  , beds := "3"
  , baths := "2"
  , sqftStr := "2,000" }

/-- A well-formed delegated-service record whose price is a non-numeric
string (fixture for the coercion clause). -/
def exampleRecordJson : Json :=
  Json.obj
    [ ("address", Json.str "1 Main St, Oakland, MD")
    , ("price", Json.str "abc")
    , ("bedrooms", Json.num 3)
    , ("bathrooms", Json.str "2")
    , ("description", Json.str "A home.")
    , ("features", Json.arr [Json.str "Lakefront"]) ]

/-- The malformed delegated-service response of the C5 scenario. -/
def unexpectedJson : Json := Json.obj [("unexpected", Json.bool true)]

/-- A searchable property priced at 100 (fixture for the zero-maxPrice
counterexample). -/
def exampleCheapProp : Property :=
  { id := "p1"
  , title := "alpha house"
  , address := "9 Some Rd"
  , price := 100
  , bedrooms := 1
  , bathrooms := "1"
  , imageUrl := "https://example.com/p1.jpg"
  , description := none
  , features := none
  , createdAt := 0 }

/-- An `InsertProperty` with an empty image URL and a negative price
(fixture for the store-invariant counterexample). -/
def badInsert : InsertProperty :=
  { title := "No Image"
  , address := "2 Void Rd"
  , price := -1
  , bedrooms := 1
  , bathrooms := "1"
  , imageUrl := ""
  , description := none
  , features := none }

/-- A benign `InsertProperty` (fixture for the store-invariant witness). -/
def goodInsert : InsertProperty :=
  { title := "Trail Cabin"
  , address := "8 Trail Rd"
  , price := 120000
  , bedrooms := 2
  , bathrooms := "1"
  , imageUrl := "https://example.com/cabin.jpg"
  , description := none
  , features := none }

/-- Operation sequence used by the store-invariant witness. -/
def goodOpsExample : List MemStorage.StoreOp :=
  [ MemStorage.StoreOp.populate 0
  , MemStorage.StoreOp.create goodInsert "id-1" 5 ]

/-- Operation sequence exhibiting the store-invariant violation. -/
def badOpsExample : List MemStorage.StoreOp :=
  [ MemStorage.StoreOp.populate 0
  , MemStorage.StoreOp.create badInsert "bad-id" 0 ]

/-! ## Helper lemmas -/

/-- Staleness is monotone: a cache stale at `t₁` is still stale at any later
`t₂`. -/
theorem isFresh_mono (st : RaileyScraper.ScraperState) (t₁ t₂ : Int)
    (hle : t₁ ≤ t₂) (h : RaileyScraper.isFresh st t₁ = false) :
    RaileyScraper.isFresh st t₂ = false := by
  rcases hlf : st.lastFetched with _ | tf
  · simp [RaileyScraper.isFresh, hlf]
  · simp only [RaileyScraper.isFresh, hlf, decide_eq_false_iff_not] at h ⊢
    omega

/-! ## C1: behaviour of `fetchListings` on extractor failure or empty result -/

/-- C1 counterexample.  The claim says that when the extractor returns an
empty result, `fetchListings` returns the previously cached result if a
non-empty one exists.  Concretely: with a non-empty cache fetched at time 0
and the call arriving at time 1800000 (just past the 30-minute window), the
extraction step of the shipped code yields the empty list, and the call
returns the fallback sample data — not the cached listings. -/
theorem c1_counterexample :
    cachedStaleState.listings.isEmpty = false ∧
    (RaileyScraper.fetchListingsWith (Except.ok []) cachedStaleState
        RaileyScraper.cacheTimeout).1 ≠ cachedStaleState.listings := by
  constructor
  · rfl
  · decide

/-- C1 (amended): on a stale cache, an extractor error leaves the cache
unchanged and returns the previously cached listings when non-empty
(otherwise the fallback data set), and an empty extraction result leaves
the cache unchanged and returns the fallback data set regardless of the
cache; in both cases the call returns normally — no failure propagates. -/
theorem c1_failure_fallback (st : RaileyScraper.ScraperState) (now : Int)
    (h : RaileyScraper.isFresh st now = false) :
    RaileyScraper.fetchListingsWith (Except.error ()) st now =
      ((if st.listings.isEmpty then RaileyScraper.getSampleData
        else st.listings), st) ∧
    RaileyScraper.fetchListingsWith (Except.ok []) st now =
      (RaileyScraper.getSampleData, st) := by
  constructor <;> simp [RaileyScraper.fetchListingsWith, h]

/-- Witness for `c1_failure_fallback` at the freshly constructed scraper
state and time 42. -/
theorem c1_witness :
    RaileyScraper.isFresh RaileyScraper.initialState 42 = false ∧
    RaileyScraper.fetchListingsWith (Except.error ()) RaileyScraper.initialState 42 =
      ((if RaileyScraper.initialState.listings.isEmpty then
          RaileyScraper.getSampleData
        else RaileyScraper.initialState.listings), RaileyScraper.initialState) ∧
    RaileyScraper.fetchListingsWith (Except.ok []) RaileyScraper.initialState 42 =
      (RaileyScraper.getSampleData, RaileyScraper.initialState) :=
  ⟨rfl, (c1_failure_fallback RaileyScraper.initialState 42 rfl).1,
    (c1_failure_fallback RaileyScraper.initialState 42 rfl).2⟩

/-! ## C2: freshness invariant -/

/-- C2: for two consecutive calls to `fetchListings` — under any extraction
outcomes — if at the time of the second call the cache left by the first
call is within the 30-minute validity window, the second call returns
exactly the first call's result, leaves the state unchanged, and its result
does not depend on the second extraction outcome (no extraction work). -/
theorem c2_freshness (st : RaileyScraper.ScraperState) (t₁ t₂ : Int)
    (e₁ e₂ : Except Unit (List RaileyProperty)) (hle : t₁ ≤ t₂)
    (hfresh : RaileyScraper.isFresh
        (RaileyScraper.fetchListingsWith e₁ st t₁).2 t₂ = true) :
    RaileyScraper.fetchListingsWith e₂
        (RaileyScraper.fetchListingsWith e₁ st t₁).2 t₂ =
      ((RaileyScraper.fetchListingsWith e₁ st t₁).1,
        (RaileyScraper.fetchListingsWith e₁ st t₁).2) := by
  by_cases h1 : RaileyScraper.isFresh st t₁ = true
  · have hr : RaileyScraper.fetchListingsWith e₁ st t₁ = (st.listings, st) := by
      simp [RaileyScraper.fetchListingsWith, h1]
    rw [hr] at hfresh ⊢
    simp only at hfresh ⊢
    simp [RaileyScraper.fetchListingsWith, hfresh]
  · have h1f : RaileyScraper.isFresh st t₁ = false := by
      simpa using h1
    have hstale := isFresh_mono st t₁ t₂ hle h1f
    cases e₁ with
    | error e =>
      have hr : RaileyScraper.fetchListingsWith (Except.error e) st t₁ =
          ((if st.listings.isEmpty then RaileyScraper.getSampleData
            else st.listings), st) := by
        simp [RaileyScraper.fetchListingsWith, h1f]
      rw [hr] at hfresh
      simp only at hfresh
      rw [hstale] at hfresh
      exact absurd hfresh (by simp)
    | ok props =>
      by_cases hp : props.isEmpty = true
      · have hr : RaileyScraper.fetchListingsWith (Except.ok props) st t₁ =
            (RaileyScraper.getSampleData, st) := by
          simp [RaileyScraper.fetchListingsWith, h1f, hp]
        rw [hr] at hfresh
        simp only at hfresh
        rw [hstale] at hfresh
        exact absurd hfresh (by simp)
      · have hpf : props.isEmpty = false := by simpa using hp
        have hr : RaileyScraper.fetchListingsWith (Except.ok props) st t₁ =
            (props, { listings := props, lastFetched := some t₁ }) := by
          simp [RaileyScraper.fetchListingsWith, h1f, hpf]
        rw [hr] at hfresh ⊢
        simp only at hfresh ⊢
        simp [RaileyScraper.fetchListingsWith, hfresh]

/-- Witness for `c2_freshness`: a first call at time 0 whose extraction
succeeds with the sample records, followed by a second call at time 1000
with an erroring extractor. -/
theorem c2_witness :
    (0 : Int) ≤ 1000 ∧
    RaileyScraper.isFresh
      (RaileyScraper.fetchListingsWith (Except.ok RaileyScraper.getSampleData)
        RaileyScraper.initialState 0).2 1000 = true ∧
    RaileyScraper.fetchListingsWith (Except.error ())
        (RaileyScraper.fetchListingsWith (Except.ok RaileyScraper.getSampleData)
          RaileyScraper.initialState 0).2 1000 =
      ((RaileyScraper.fetchListingsWith (Except.ok RaileyScraper.getSampleData)
          RaileyScraper.initialState 0).1,
        (RaileyScraper.fetchListingsWith (Except.ok RaileyScraper.getSampleData)
          RaileyScraper.initialState 0).2) :=
  ⟨by decide, by decide,
    c2_freshness RaileyScraper.initialState 0 1000
      (Except.ok RaileyScraper.getSampleData) (Except.error ())
      (by decide) (by decide)⟩

/-! ## C3: fallback guarantee -/

/-- C3: with an extractor that raises an error both at construction time and
at request time, `getProperties` still returns at least 5 properties, each
with a non-empty image URL; and the fallback data set is a fixed sequence of
at least 5 complete records (it is a closed, argument-free definition, hence
pure and deterministic). -/
theorem c3_fallback_guarantee (t0 t1 : Int) :
    5 ≤ (MemStorage.getProperties (Except.error ()) t1
          (MemStorage.newMemStorage (Except.error ()) t0)).1.length ∧
    (MemStorage.getProperties (Except.error ()) t1
        (MemStorage.newMemStorage (Except.error ()) t0)).1.all
      (fun p => p.imageUrl != "") = true ∧
    5 ≤ RaileyScraper.getSampleData.length ∧
    RaileyScraper.getSampleData.all completeRecord = true := by
  refine ⟨Nat.le.refl, rfl, Nat.le.refl, rfl⟩

/-! ## C7: extractor cap -/

/-- Length of the capped extraction loop. -/
theorem parseListingsLoop_length (f : String → Option String)
    (ms : List RaileyScraper.ListingMatch) (n : Nat) :
    (RaileyScraper.parseListingsLoop f ms n).length = min (50 - n) ms.length := by
  induction ms generalizing n with
  | nil => simp [RaileyScraper.parseListingsLoop]
  | cons m rest ih =>
    simp only [RaileyScraper.parseListingsLoop]
    by_cases h : n < 50
    · simp only [if_pos h, List.length_cons, ih]
      omega
    · simp only [if_neg h, List.length_nil, List.length_cons]
      omega

/-- C7: for every match stream the pattern extractor emits at most 50
records, and a stream of 80 well-formed matches yields exactly 50. -/
theorem c7_extractor_cap (f : String → Option String)
    (ms : List RaileyScraper.ListingMatch) :
    (RaileyScraper.parseListingsFromHtml f ms).length ≤ 50 ∧
    (ms.length = 80 → (RaileyScraper.parseListingsFromHtml f ms).length = 50) := by
  unfold RaileyScraper.parseListingsFromHtml
  have h := parseListingsLoop_length f ms 0
  by_cases he : (RaileyScraper.parseListingsLoop f ms 0).isEmpty = true
  · rw [List.isEmpty_iff] at he
    rw [he] at h
    simp only [he, List.isEmpty_nil, if_true]
    constructor
    · decide
    · intro h80
      rw [h80] at h
      simp at h
  · have hef : (RaileyScraper.parseListingsLoop f ms 0).isEmpty = false := by
      simpa using he
    simp only [hef, Bool.false_eq_true, if_false]
    constructor
    · rw [h]; omega
    · intro h80; rw [h, h80]; omega

/-- Witness for `c7_extractor_cap`: 80 copies of a well-formed match. -/
theorem c7_witness :
    (List.replicate 80 exampleMatch).length = 80 ∧
    (RaileyScraper.parseListingsFromHtml (fun _ => none)
        (List.replicate 80 exampleMatch)).length = 50 :=
  ⟨rfl, (c7_extractor_cap (fun _ => none) (List.replicate 80 exampleMatch)).2 rfl⟩

/-! ## C8: title synthesis -/

/-- `split(",")[0]` is exactly the spec's street portion. -/
theorem jsSplitHead_eq_streetPortion (s : String) :
    jsSplitHead s = streetPortion s := by
  unfold jsSplitHead streetPortion
  rw [splitOnChar_head]

/-- C8 counterexample.  The claim's exact expected title uses an en dash
("Lake Access Home – 100 Deep Creek Dr"); the code joins with an ASCII
hyphen-minus, so the synthesized title differs from the claimed string.
(Also, with the claim's literal kebab-case tag "lake-access" — the code
compares against the literal "Lake Access" — the generic title results.) -/
theorem c8_counterexample :
    RaileyScraper.generateTitle "100 Deep Creek Dr, McHenry, MD"
        ["Lake Access", "Mountain Views"] ≠
      "Lake Access Home – 100 Deep Creek Dr" ∧
    RaileyScraper.generateTitle "100 Deep Creek Dr, McHenry, MD"
        ["lake-access"] = "Mountain Home - 100 Deep Creek Dr" := by
  constructor
  · decide
  · decide

/-- C8 (amended): title synthesis follows the priority order Lake Access,
Ski Access, Luxury Estate, then generic, prefixing the street portion
(address text before the first comma); a record with address
"100 Deep Creek Dr, McHenry, MD" and feature tags including "Lake Access"
synthesizes exactly "Lake Access Home - 100 Deep Creek Dr" (ASCII
hyphen-minus). -/
theorem c8_title_synthesis (address : String) (features : List String) :
    RaileyScraper.generateTitle address features =
      (if "Lake Access" ∈ features then
        "Lake Access Home - " ++ streetPortion address
      else if "Ski Access" ∈ features then
        "Ski Resort Property - " ++ streetPortion address
      else if "Luxury Estate" ∈ features then
        "Luxury Mountain Estate - " ++ streetPortion address
      else "Mountain Home - " ++ streetPortion address) ∧
    RaileyScraper.generateTitle "100 Deep Creek Dr, McHenry, MD"
        ["Lake Access", "Mountain Views"] =
      "Lake Access Home - 100 Deep Creek Dr" := by
  constructor
  · unfold RaileyScraper.generateTitle
    simp only [jsSplitHead_eq_streetPortion, List.contains, List.elem_eq_mem,
      decide_eq_true_eq]
  · decide

/-! ## C10: zero maxPrice disables the price filter -/

/-- C10: a provided `maxPrice` of 0 is falsy and disables the price filter —
`searchProperties(q, 0)` equals `searchProperties(q)` on every collection —
and the route layer maps an absent or empty `maxPrice` parameter to no
bound. -/
theorem c10_zero_maxprice :
    (∀ (props : List Property) (q : String),
        MemStorage.searchProperties props q (some 0) =
          MemStorage.searchProperties props q none) ∧
    Routes.maxPriceNum none = none ∧ Routes.maxPriceNum (some "") = none := by
  refine ⟨fun props q => ?_, rfl, rfl⟩
  rfl

/-! ## C4: search characterization -/

/-- The lowered-includes test coincides with the spec's case-insensitive
substring containment. -/
theorem strIncludes_lower_iff (s q : String) :
    strIncludes (strToLower s) (strToLower q) = true ↔ CIContains s q := by
  unfold strIncludes CIContains
  exact containsChars_iff _ _

/-- The text condition of `searchProperties`, as a proposition. -/
theorem matchesQuery_iff (q : String) (p : Property) :
    MemStorage.matchesQuery (strToLower q) p = true ↔
      (CIContains p.title q ∨ CIContains p.address q ∨
        (∃ d, p.description = some d ∧ CIContains d q) ∨
        (∃ fs, p.features = some fs ∧ ∃ f ∈ fs, CIContains f q)) := by
  unfold MemStorage.matchesQuery
  rcases hd : p.description with _ | d <;> rcases hf : p.features with _ | fs <;>
    simp [hd, hf, Bool.or_eq_true, List.any_eq_true, strIncludes_lower_iff,
      or_assoc]

/-- The price condition of `searchProperties`, as a proposition: a bound
applies only when `maxPrice` is provided and nonzero. -/
theorem matchesPrice_iff (mp : Option Int) (p : Property) :
    MemStorage.matchesPrice mp p = true ↔
      (∀ m, mp = some m → m ≠ 0 → p.price ≤ m) := by
  unfold MemStorage.matchesPrice
  rcases mp with _ | m
  · simp
  · by_cases hm : m = 0
    · subst hm; simp
    · simp [hm]

/-- C4 counterexample.  The claim says that whenever `maxPrice` is provided
the result contains only properties with `price ≤ maxPrice`.  With a
provided `maxPrice` of 0 (falsy in JS), a property priced 100 whose title
matches the query is returned, although its price is not `≤ 0`. -/
theorem c4_counterexample :
    exampleCheapProp ∈
      MemStorage.searchProperties [exampleCheapProp] "a" (some 0) ∧
    ¬ (exampleCheapProp.price ≤ 0) := by
  constructor
  · decide
  · decide

/-- C4 (amended): `searchProperties` returns exactly the stored properties
for which the query is a case-insensitive substring of the title, the
address, the description, or some feature tag (OR across the four text
fields), AND whose price is ≤ `maxPrice` whenever `maxPrice` is provided
and nonzero (a provided 0 is falsy and disables the price bound; an absent
`maxPrice` likewise applies no bound). -/
theorem c4_search_characterization (props : List Property) (q : String)
    (mp : Option Int) (p : Property) :
    p ∈ MemStorage.searchProperties props q mp ↔
      p ∈ props ∧
      (CIContains p.title q ∨ CIContains p.address q ∨
        (∃ d, p.description = some d ∧ CIContains d q) ∨
        (∃ fs, p.features = some fs ∧ ∃ f ∈ fs, CIContains f q)) ∧
      (∀ m, mp = some m → m ≠ 0 → p.price ≤ m) := by
  unfold MemStorage.searchProperties
  rw [List.mem_filter, Bool.and_eq_true, matchesQuery_iff, matchesPrice_iff]

/-- Witness for `c4_search_characterization`: the stored cheap property is
returned for the query "alpha" under the provided bound 200, via the
characterization. -/
theorem c4_witness :
    exampleCheapProp ∈
      MemStorage.searchProperties [exampleCheapProp] "alpha" (some 200) :=
  (c4_search_characterization [exampleCheapProp] "alpha" (some 200)
      exampleCheapProp).mpr
    ⟨by decide, Or.inl ⟨[], (" house").data, by decide⟩,
      fun m hm _ => by cases hm; decide⟩

/-! ## C5: malformed delegated-service response -/

/-- C5: a well-formed JSON response whose `properties` field is missing or
not an array yields zero records (no error), and a zero-record extraction
makes `scrapeRaileyListings` keep the cache unchanged and return the
previously cached data — the fallback path — again without error. -/
theorem c5_malformed_response (j : Json) (t : Int) (rands : Nat → Int)
    (st : OpenAIScraper.ScraperState) (now : Int)
    (h : OpenAIScraper.hasPropertiesArray j = false) :
    OpenAIScraper.extractPropertiesWithOpenAI (Except.ok j) t rands =
      Except.ok [] ∧
    OpenAIScraper.scrapeStep (Except.ok []) st now =
      Except.ok (st.cachedProperties, st) := by
  constructor
  · unfold OpenAIScraper.extractPropertiesWithOpenAI
    unfold OpenAIScraper.hasPropertiesArray at h
    rcases hg : j.get "properties" with _ | v
    · simp [hg]
    · rw [hg] at h
      cases v <;> simp_all
  · rfl

/-- Witness for `c5_malformed_response` at the scenario's concrete response
`{"unexpected": true}` and the initial scraper state. -/
theorem c5_witness :
    OpenAIScraper.hasPropertiesArray unexpectedJson = false ∧
    OpenAIScraper.extractPropertiesWithOpenAI (Except.ok unexpectedJson) 0
        (fun _ => 1) = Except.ok [] ∧
    OpenAIScraper.scrapeStep (Except.ok []) OpenAIScraper.initialState 0 =
      Except.ok (OpenAIScraper.initialState.cachedProperties,
        OpenAIScraper.initialState) :=
  ⟨rfl,
    (c5_malformed_response unexpectedJson 0 (fun _ => 1)
      OpenAIScraper.initialState 0 rfl).1,
    (c5_malformed_response unexpectedJson 0 (fun _ => 1)
      OpenAIScraper.initialState 0 rfl).2⟩

/-! ## C6: normalizer totality -/

/-- A string-or-missing record field, defaulted through a truthiness guard,
is never empty when the default is non-empty. -/
theorem jsStrField_ne (o : Option Json) (dflt : String)
    (hd : dflt ≠ "") (h : OpenAIScraper.strFieldOk o = true) :
    OpenAIScraper.jsStrField o dflt ≠ "" := by
  unfold OpenAIScraper.jsStrField
  rcases o with _ | v
  · exact hd
  · cases v with
    | null => simpa [Json.truthy] using hd
    | str s =>
      by_cases hs : s = ""
      · simp only [Json.truthy, hs]
        simp only [bne_self_eq_false, Bool.false_eq_true, if_false]
        exact hd
      · simp only [Json.truthy, Json.toStr]
        simp [hs]
    | bool b => exact absurd h (by cases b <;> simp [OpenAIScraper.strFieldOk])
    | num n => exact absurd h (by simp [OpenAIScraper.strFieldOk])
    | arr l => exact absurd h (by simp [OpenAIScraper.strFieldOk])
    | obj fs => exact absurd h (by simp [OpenAIScraper.strFieldOk])

theorem mapRecord_id_ne (j : Json) (t : Int) (i : Nat) (r : Int) :
    (OpenAIScraper.mapRecord j t i r).id ≠ "" := by
  show ("railey-" ++ toString t ++ "-" ++ toString i) ≠ ""
  apply strAppend_ne_empty_left
  rw [strData_append]
  intro hc
  have h1 := (List.append_eq_nil.mp hc).1
  rw [strData_append] at h1
  exact absurd (List.append_eq_nil.mp h1).1 (by decide)

theorem oaGenerateTitle_ne (a : String) (fs : List String) :
    OpenAIScraper.generateTitle a fs ≠ "" := by
  unfold OpenAIScraper.generateTitle
  dsimp only
  split_ifs <;> decide

theorem oaPlaceholderImage_ne (fs : List String) :
    OpenAIScraper.getPlaceholderImage fs ≠ "" := by
  unfold OpenAIScraper.getPlaceholderImage
  dsimp only
  split_ifs <;> decide

theorem mapRecord_title_ne (j : Json) (t : Int) (i : Nat) (r : Int) :
    (OpenAIScraper.mapRecord j t i r).title ≠ "" := by
  unfold OpenAIScraper.mapRecord
  dsimp only
  exact oaGenerateTitle_ne _ _

theorem mapRecord_imageUrl_ne (j : Json) (t : Int) (i : Nat) (r : Int) :
    (OpenAIScraper.mapRecord j t i r).imageUrl ≠ "" := by
  unfold OpenAIScraper.mapRecord
  dsimp only
  exact oaPlaceholderImage_ne _

theorem mapRecord_address_ne (j : Json) (t : Int) (i : Nat) (r : Int)
    (ha : OpenAIScraper.strFieldOk (j.get "address") = true) :
    (OpenAIScraper.mapRecord j t i r).address ≠ "" := by
  unfold OpenAIScraper.mapRecord
  dsimp only
  exact jsStrField_ne _ _ (by decide) ha

theorem mapRecord_description_ne (j : Json) (t : Int) (i : Nat) (r : Int)
    (hdesc : OpenAIScraper.strFieldOk (j.get "description") = true) :
    (OpenAIScraper.mapRecord j t i r).description ≠ "" := by
  unfold OpenAIScraper.mapRecord
  dsimp only
  exact jsStrField_ne _ _ (by decide) hdesc

theorem mapRecord_bathrooms_ne (j : Json) (t : Int) (i : Nat) (r : Int) :
    (OpenAIScraper.mapRecord j t i r).bathrooms ≠ "" := by
  show (match j.get "bathrooms" with
    | none => "0"
    | some .null => "0"
    | some v => let s := v.toStr; if s = "" then "0" else s) ≠ ""
  rcases j.get "bathrooms" with _ | v
  · decide
  · cases v with
    | null => decide
    | str s =>
      by_cases hs : s = ""
      · simp [Json.toStr, hs]
        decide
      · simp [Json.toStr, hs]
    | bool b =>
      cases b
      · simp [Json.toStr]
        decide
      · simp [Json.toStr]
        decide
    | num n =>
      by_cases hn : toString n = ""
      · simp [Json.toStr, hn]
        decide
      · simp [Json.toStr, hn]
    | arr l =>
      simp [Json.toStr]
      decide
    | obj fs =>
      simp [Json.toStr]
      decide

/-- C6: (a) for every well-formed delegated-service record, the mapped
property has all required fields populated — non-empty id, title, address,
bathrooms, image URL and description — and the mapping is a total function
(it never raises); (b) a non-numeric string price is coerced to 0 rather
than raising; (c) `convertToAppProperty` copies every required field of a
raw record with non-negative price and bedroom count into a fully populated
canonical property. -/
theorem c6_normalizer_totality :
    (∀ (j : Json) (t : Int) (i : Nat) (r : Int),
        OpenAIScraper.recordWellFormed j = true →
        (OpenAIScraper.mapRecord j t i r).id ≠ "" ∧
        (OpenAIScraper.mapRecord j t i r).title ≠ "" ∧
        (OpenAIScraper.mapRecord j t i r).address ≠ "" ∧
        (OpenAIScraper.mapRecord j t i r).bathrooms ≠ "" ∧
        (OpenAIScraper.mapRecord j t i r).imageUrl ≠ "" ∧
        (OpenAIScraper.mapRecord j t i r).description ≠ "") ∧
    (∀ (j : Json) (t : Int) (i : Nat) (r : Int) (s : String),
        j.get "price" = some (.str s) →
        s.data.all (fun c => !c.isDigit) = true →
        (OpenAIScraper.mapRecord j t i r).price = 0) ∧
    (∀ (raw : RaileyProperty) (now : Int),
        0 ≤ raw.price → 0 ≤ raw.bedrooms →
        (RaileyScraper.convertToAppProperty raw now).id = raw.id ∧
        (RaileyScraper.convertToAppProperty raw now).title = raw.title ∧
        (RaileyScraper.convertToAppProperty raw now).address = raw.address ∧
        (RaileyScraper.convertToAppProperty raw now).price = raw.price ∧
        0 ≤ (RaileyScraper.convertToAppProperty raw now).price ∧
        (RaileyScraper.convertToAppProperty raw now).bedrooms = raw.bedrooms ∧
        0 ≤ (RaileyScraper.convertToAppProperty raw now).bedrooms ∧
        (RaileyScraper.convertToAppProperty raw now).bathrooms = raw.bathrooms ∧
        (RaileyScraper.convertToAppProperty raw now).imageUrl = raw.imageUrl ∧
        (RaileyScraper.convertToAppProperty raw now).description =
          some raw.description ∧
        (RaileyScraper.convertToAppProperty raw now).features =
          some raw.features) := by
  refine ⟨fun j t i r hwf => ?_, fun j t i r s hp hnd => ?_,
    fun raw now hp hb => ⟨rfl, rfl, rfl, rfl, hp, rfl, hb, rfl, rfl, rfl, rfl⟩⟩
  · unfold OpenAIScraper.recordWellFormed at hwf
    simp only [Bool.and_eq_true] at hwf
    obtain ⟨⟨⟨⟨⟨⟨⟨⟨ha, hdesc⟩, -⟩, -⟩, -⟩, -⟩, -⟩, -⟩, -⟩ := hwf
    exact ⟨mapRecord_id_ne j t i r, mapRecord_title_ne j t i r,
      mapRecord_address_ne j t i r ha, mapRecord_bathrooms_ne j t i r,
      mapRecord_imageUrl_ne j t i r, mapRecord_description_ne j t i r hdesc⟩
  · show (match j.get "price" with
      | some (.num n) => n
      | some v => OpenAIScraper.coercePrice v
      | none => (0 : Int)) = (0 : Int)
    rw [hp]
    show OpenAIScraper.coercePrice (.str s) = 0
    unfold OpenAIScraper.coercePrice
    have hfil : s.data.filter Char.isDigit = [] := by
      rw [List.filter_eq_nil_iff]
      intro c hc
      have := List.all_eq_true.mp hnd c hc
      simpa using this
    simp [Json.toStr, hfil]

/-- Witness for `c6_normalizer_totality` at a concrete well-formed record
with a non-numeric string price, and a concrete raw listing. -/
theorem c6_witness :
    ((OpenAIScraper.mapRecord exampleRecordJson 7 0 3).id ≠ "" ∧
      (OpenAIScraper.mapRecord exampleRecordJson 7 0 3).title ≠ "" ∧
      (OpenAIScraper.mapRecord exampleRecordJson 7 0 3).address ≠ "" ∧
      (OpenAIScraper.mapRecord exampleRecordJson 7 0 3).bathrooms ≠ "" ∧
      (OpenAIScraper.mapRecord exampleRecordJson 7 0 3).imageUrl ≠ "" ∧
      (OpenAIScraper.mapRecord exampleRecordJson 7 0 3).description ≠ "") ∧
    (OpenAIScraper.mapRecord exampleRecordJson 7 0 3).price = 0 ∧
    ((RaileyScraper.convertToAppProperty cachedListing 9).id = cachedListing.id ∧
      (RaileyScraper.convertToAppProperty cachedListing 9).title =
        cachedListing.title ∧
      (RaileyScraper.convertToAppProperty cachedListing 9).address =
        cachedListing.address ∧
      (RaileyScraper.convertToAppProperty cachedListing 9).price =
        cachedListing.price ∧
      0 ≤ (RaileyScraper.convertToAppProperty cachedListing 9).price ∧
      (RaileyScraper.convertToAppProperty cachedListing 9).bedrooms =
        cachedListing.bedrooms ∧
      0 ≤ (RaileyScraper.convertToAppProperty cachedListing 9).bedrooms ∧
      (RaileyScraper.convertToAppProperty cachedListing 9).bathrooms =
        cachedListing.bathrooms ∧
      (RaileyScraper.convertToAppProperty cachedListing 9).imageUrl =
        cachedListing.imageUrl ∧
      (RaileyScraper.convertToAppProperty cachedListing 9).description =
        some cachedListing.description ∧
      (RaileyScraper.convertToAppProperty cachedListing 9).features =
        some cachedListing.features) :=
  ⟨c6_normalizer_totality.1 exampleRecordJson 7 0 3 (by decide),
    c6_normalizer_totality.2.1 exampleRecordJson 7 0 3 "abc" rfl (by decide),
    c6_normalizer_totality.2.2 cachedListing 9 (by decide) (by decide)⟩

/-! ## C9: store invariant -/

/-- `Map.set` preserves a pointwise property of the stored values when the
inserted value satisfies it. -/
theorem mapSet_all (P : Property → Bool) (m : List (String × Property))
    (k : String) (v : Property)
    (hm : m.all (fun e => P e.2) = true) (hv : P v = true) :
    (MemStorage.mapSet m k v).all (fun e => P e.2) = true := by
  unfold MemStorage.mapSet
  split
  · rw [List.all_eq_true] at hm ⊢
    intro e he
    obtain ⟨e', he', heq⟩ := List.mem_map.mp he
    by_cases hk : e'.1 = k
    · rw [if_pos hk] at heq
      cases heq
      exact hv
    · rw [if_neg hk] at heq
      rw [← heq]
      exact hm e' he'
  · rw [List.all_eq_true] at hm ⊢
    intro e he
    rcases List.mem_append.mp he with h | h
    · exact hm e h
    · rw [List.mem_singleton.mp h]
      exact hv

/-- Folding converted records into the map preserves the store invariant
when every inserted record satisfies it. -/
theorem foldStore_all (l : List Property) (m : List (String × Property))
    (hl : l.all MemStorage.goodProp = true)
    (hm : m.all (fun e => MemStorage.goodProp e.2) = true) :
    (l.foldl
        (fun acc p => MemStorage.mapSet acc p.id
          { p with description := MemStorage.jsStrOrNull p.description }) m).all
      (fun e => MemStorage.goodProp e.2) = true := by
  induction l generalizing m with
  | nil => simpa using hm
  | cons p rest ih =>
    simp only [List.all_cons, Bool.and_eq_true] at hl
    simp only [List.foldl_cons]
    exact ih _ hl.2 (mapSet_all _ _ _ _ hm hl.1)

/-- The converted fallback records all satisfy the store invariant, at every
conversion time. -/
theorem sampleConverted_good (now : Int) :
    ((RaileyScraper.getSampleData.take 12).map
        (fun rp => RaileyScraper.convertToAppProperty rp now)).all
      MemStorage.goodProp = true := rfl

/-- C9 counterexample.  The claim says every property in the store, after
any sequence of population and `createProperty` operations, has a non-empty
image URL and a non-negative price.  `createProperty` performs no
validation: after a population and a `createProperty` whose argument has an
empty image URL and price -1, the store contains a property violating both
conditions. -/
theorem c9_counterexample :
    (MemStorage.runOps badOpsExample).props.any
      (fun e => e.2.imageUrl == "" && decide (e.2.price < 0)) = true := by
  decide

/-- C9 (amended): after any sequence of population operations (initial or
lazy re-population through the fetch pipeline, whose extraction step in the
shipped code yields the empty list and therefore falls back to the sample
data) and `createProperty` calls whose arguments have a non-empty image URL
and a non-negative price, every property in the store has a non-empty image
URL and a non-negative price.  (Unvalidated `createProperty` input can break
the invariant, as the counterexample shows.) -/
theorem c9_store_invariant (ops : List MemStorage.StoreOp)
    (h : ops.all MemStorage.goodOp = true) :
    MemStorage.storeOk (MemStorage.runOps ops) = true := by
  suffices H : ∀ (l : List MemStorage.StoreOp) (s : MemStorage.StoreState),
      l.all MemStorage.goodOp = true →
      MemStorage.storeOk s = true →
      s.scr = RaileyScraper.initialState →
      MemStorage.storeOk (l.foldl MemStorage.applyOp s) = true ∧
      (l.foldl MemStorage.applyOp s).scr = RaileyScraper.initialState by
    exact (H ops { props := [], scr := RaileyScraper.initialState } h rfl rfl).1
  intro l
  induction l with
  | nil => exact fun s _ hs hscr => ⟨hs, hscr⟩
  | cons op rest ih =>
    intro s hall hs hscr
    simp only [List.all_cons, Bool.and_eq_true] at hall
    simp only [List.foldl_cons]
    cases op with
    | populate now =>
      have hf : RaileyScraper.fetchListingsWith (Except.ok []) s.scr now =
          (RaileyScraper.getSampleData, RaileyScraper.initialState) := by
        rw [hscr]
        simp [RaileyScraper.fetchListingsWith, RaileyScraper.isFresh,
          RaileyScraper.initialState]
      refine ih _ hall.2 ?_ ?_
      · show MemStorage.storeOk
          (MemStorage.initRaileyData (Except.ok []) now s) = true
        unfold MemStorage.initRaileyData MemStorage.storeOk
        rw [hf]
        exact foldStore_all _ _ (sampleConverted_good now) hs
      · show (MemStorage.initRaileyData (Except.ok []) now s).scr =
          RaileyScraper.initialState
        unfold MemStorage.initRaileyData
        rw [hf]
    | create ip id now =>
      refine ih _ hall.2 ?_ ?_
      · show MemStorage.storeOk (MemStorage.createProperty s ip id now).2 = true
        unfold MemStorage.createProperty MemStorage.storeOk
        exact mapSet_all _ _ _ _ hs hall.1
      · exact hscr

/-- Witness for `c9_store_invariant`: a population followed by a benign
`createProperty`. -/
theorem c9_witness :
    goodOpsExample.all MemStorage.goodOp = true ∧
    MemStorage.storeOk (MemStorage.runOps goodOpsExample) = true :=
  ⟨by decide, c9_store_invariant goodOpsExample (by decide)⟩

end RealtyBot
